import Mathlib

/-
Verification of the authentication and access-control core of the hr-ats
backend (backend/app/core and backend/app/services), shallowly embedded in
Lean 4.  Wall-clock time is modelled by integers (the claims are stated in
whole seconds, so the Python int() truncations become the identity); every
function that reads the clock in Python receives the current time as an
explicit argument.
Python dictionaries keyed by strings are modelled as total functions with a
default empty value when the two are observationally equivalent, or as
association lists where iteration order matters.
-/

namespace HrAts

/-- Configuration value Settings.RATE_LIMIT_PER_MINUTE from core/config.py. -/
def RATE_LIMIT_PER_MINUTE : ℕ := 5

/-- Configuration value Settings.ACCESS_TOKEN_EXPIRE_MINUTES from core/config.py. -/
def ACCESS_TOKEN_EXPIRE_MINUTES : ℕ := 15

/-- Configuration value Settings.REFRESH_TOKEN_EXPIRE_DAYS from core/config.py. -/
def REFRESH_TOKEN_EXPIRE_DAYS : ℕ := 7

/-- State of the in-memory sliding-window rate limiter of core/rate_limiter.py.
The Python dict self.requests is modelled as a total function; a key that was
never inserted maps to the empty list, which is observationally equivalent in
this class. -/
structure RateLimiter where
  requests : String → List ℤ
  max_requests : ℕ
  window_seconds : ℤ

/-- Constructor RateLimiter.__init__: empty history, ceiling from settings,
60-second window. -/
def RateLimiter.mk0 : RateLimiter :=
  { requests := fun _ => [], max_requests := RATE_LIMIT_PER_MINUTE, window_seconds := 60 }

/-- Method RateLimiter.is_allowed: prune timestamps at or before now minus the
window, allow and record the call time when the pruned count is below the
ceiling.  Returns the result together with the mutated limiter. -/
def RateLimiter.is_allowed (rl : RateLimiter) (key : String) (now : ℤ) :
    Bool × RateLimiter :=
  let window_start := now - rl.window_seconds
  let pruned := (rl.requests key).filter (fun t => window_start < t)
  if pruned.length < rl.max_requests then
    (true, { rl with requests := fun k => if k = key then pruned ++ [now] else rl.requests k })
  else
    (false, { rl with requests := fun k => if k = key then pruned else rl.requests k })

/-- Minimum of a nonempty list, the behaviour of the Python builtin min. -/
def listMin (t : ℤ) (ts : List ℤ) : ℤ :=
  ts.foldl min t

/-- Method RateLimiter.get_retry_after: 0 for an empty history, otherwise the
clamped truncated distance from the oldest recorded timestamp to the end of
its window.  Note the minimum ranges over every recorded timestamp, pruned or
not. -/
def RateLimiter.get_retry_after (rl : RateLimiter) (key : String) (now : ℤ) : ℤ :=
  match rl.requests key with
  | [] => 0
  | t :: ts => max 0 ((listMin t ts + rl.window_seconds - now))

/-- Method RateLimiter.reset: drop all history for the key. -/
def RateLimiter.reset (rl : RateLimiter) (key : String) : RateLimiter :=
  { rl with requests := fun k => if k = key then [] else rl.requests k }

/-- State of the per-identity failed-login tracker LoginAttemptTracker of
core/rate_limiter.py, with the same dict-as-function convention. -/
structure LoginAttemptTracker where
  failed_attempts : String → List ℤ
  max_failed_attempts : ℕ
  lockout_duration : ℤ

/-- Constructor LoginAttemptTracker.__init__: threshold 5, lockout 300 s. -/
def LoginAttemptTracker.mk0 : LoginAttemptTracker :=
  { failed_attempts := fun _ => [], max_failed_attempts := 5, lockout_duration := 300 }

/-- Method LoginAttemptTracker.record_failed_attempt: append the call time. -/
def LoginAttemptTracker.record_failed_attempt (tr : LoginAttemptTracker)
    (key : String) (now : ℤ) : LoginAttemptTracker :=
  { tr with failed_attempts :=
      fun k => if k = key then tr.failed_attempts key ++ [now] else tr.failed_attempts k }

/-- Method LoginAttemptTracker.record_successful_attempt: clear the history of
the key. -/
def LoginAttemptTracker.record_successful_attempt (tr : LoginAttemptTracker)
    (key : String) : LoginAttemptTracker :=
  { tr with failed_attempts := fun k => if k = key then [] else tr.failed_attempts k }

/-- Method LoginAttemptTracker.is_locked_out: at least the threshold many
failures strictly inside the trailing lockout window. -/
def LoginAttemptTracker.is_locked_out (tr : LoginAttemptTracker)
    (key : String) (now : ℤ) : Bool :=
  let recent := (tr.failed_attempts key).filter (fun a => now - a < tr.lockout_duration)
  decide (tr.max_failed_attempts ≤ recent.length)

/-- Folding a sequence of record_failed_attempt calls at the given times. -/
def recordFailures (tr : LoginAttemptTracker) (key : String) : List ℤ → LoginAttemptTracker
  | [] => tr
  | t :: ts => recordFailures (tr.record_failed_attempt key t) key ts

/-- Claims carried by a JWT payload as produced by core/security.py:
create_access_token sets sub and exp and no type claim; create_refresh_token
additionally sets type to the string refresh. -/
structure TokenPayload where
  sub : Option String
  exp : ℤ
  type : Option String
  deriving DecidableEq, Repr

/-- A bearer token.  The signature check of jose.jwt.decode against the
process secret is abstracted into the boolean sigValid, and the sha256 hex
digest computed by TokenService._hash_token into the field hashValue, unique
per distinct token under the usual collision-freeness idealization. -/
structure Token where
  payload : TokenPayload
  sigValid : Bool
  hashValue : String
  deriving DecidableEq, Repr

/-- Result record TokenData of core/security.py. -/
structure TokenData where
  sub : Option String
  deriving DecidableEq, Repr

/-- Behaviour of jose.jwt.decode with default options: reject a bad signature,
reject an expired token (exp strictly in the past), otherwise expose the
payload. -/
def jwtDecode (tok : Token) (now : ℤ) : Except String TokenPayload :=
  if tok.sigValid = false then Except.error "Signature verification failed"
  else if tok.payload.exp < now then Except.error "Signature has expired"
  else Except.ok tok.payload

/-- Function verify_token of core/security.py: decode, then require a subject.
No check of the token kind is performed. -/
def verify_token (tok : Token) (now : ℤ) : Except String TokenData :=
  match jwtDecode tok now with
  | Except.error e => Except.error ("Token verification failed: " ++ e)
  | Except.ok payload =>
    match payload.sub with
    | none => Except.error "Token missing subject"
    | some uid => Except.ok { sub := some uid }

/-- Function verify_refresh_token of core/security.py: decode, require the
type claim to equal refresh, then require a subject. -/
def verify_refresh_token (tok : Token) (now : ℤ) : Except String TokenData :=
  match jwtDecode tok now with
  | Except.error e => Except.error ("Refresh token verification failed: " ++ e)
  | Except.ok payload =>
    if payload.type ≠ some "refresh" then
      Except.error "Invalid token type"
    else
      match payload.sub with
      | none => Except.error "Token missing subject"
      | some uid => Except.ok { sub := some uid }

/-- Function create_access_token of core/security.py with the default TTL: the
payload holds the given claims and an expiry 15 minutes out, no type claim.
The digest field is irrelevant for access tokens, which are never stored. -/
def create_access_token (uid : String) (now : ℤ) : Token :=
  { payload := { sub := some uid, exp := now + ACCESS_TOKEN_EXPIRE_MINUTES * 60, type := none },
    sigValid := true,
    hashValue := "" }

/-- Role as seen by the permission code: models/role.py exposes name and the
permissions dict mapping a resource string to its action list, here an
association list with unique keys. -/
structure Role where
  name : String
  permissions : List (String × List String)
  deriving DecidableEq, Repr

/-- Python dict.get with default empty list over the association-list model. -/
def dictGet (d : List (String × List String)) (k : String) : List String :=
  match d.find? (fun p => p.1 == k) with
  | some p => p.2
  | none => []

/-- Python membership test for a dict key over the association-list model. -/
def dictContains (d : List (String × List String)) (k : String) : Bool :=
  (d.find? (fun p => p.1 == k)).isSome

/-- Subject record with the fields of models/user.py that the auth core
reads. -/
structure User where
  id : String
  email : String
  password_hash : String
  is_active : Bool
  first_name : String
  last_name : String
  role : Option Role
  deriving DecidableEq, Repr

/-- Row of the refresh_tokens table, models/refresh_token.py. -/
structure RefreshSession where
  user_id : String
  token_hash : String
  expires_at : ℤ
  is_revoked : Bool
  revoked_at : Option ℤ
  deriving DecidableEq, Repr

/-- The durable state the token service touches: the users and refresh_tokens
tables, in insertion order as the queries return them. -/
structure DB where
  users : List User
  sessions : List RefreshSession
  deriving DecidableEq, Repr

/-- Replacement of the first element satisfying a predicate, the effect of
mutating the row returned by a query .first() call. -/
def updateFirst {α : Type} (p : α → Bool) (f : α → α) : List α → List α
  | [] => []
  | a :: l => if p a then f a :: l else a :: updateFirst p f l

/-- Method TokenService.create_tokens: issue an access token, issue a refresh
token (passed in as freshRefresh, standing for the signed JWT built by
create_refresh_token for this user at this time), store a session row holding
its digest with a 7-day expiry, and return both tokens. -/
def create_tokens (db : DB) (user : User) (freshRefresh : Token) (now : ℤ) :
    (Token × Token) × DB :=
  let access := create_access_token user.id now
  let row : RefreshSession :=
    { user_id := user.id,
      token_hash := freshRefresh.hashValue,
      expires_at := now + REFRESH_TOKEN_EXPIRE_DAYS * 24 * 60 * 60,
      is_revoked := false,
      revoked_at := none }
  ((access, freshRefresh), { db with sessions := db.sessions ++ [row] })

/-- Outcome of TokenService.refresh_access_token: verify the refresh JWT, load
an active user from its subject claim, require an unrevoked unexpired session
row holding the token digest for that user, and issue a fresh access token. -/
def refresh_result (db : DB) (tok : Token) (now : ℤ) : Except String Token :=
  match verify_refresh_token tok now with
  | Except.error e => Except.error ("Invalid refresh token: " ++ e)
  | Except.ok td =>
    match td.sub with
    | none => Except.error "User not found or inactive"
    | some uid =>
      match db.users.find? (fun u => u.id == uid) with
      | none => Except.error "User not found or inactive"
      | some user =>
        if user.is_active = false then
          Except.error "User not found or inactive"
        else
          match db.sessions.find? (fun s =>
              s.user_id == user.id && s.token_hash == tok.hashValue &&
              s.is_revoked == false && decide (now < s.expires_at)) with
          | none => Except.error "Refresh token not found or expired"
          | some _ => Except.ok (create_access_token user.id now)

/-- Method TokenService.refresh_access_token together with the state it
leaves behind: the method performs no writes, so the database comes back
unchanged. -/
def refresh_access_token (db : DB) (tok : Token) (now : ℤ) :
    Except String Token × DB :=
  (refresh_result db tok now, db)

/-- Method TokenService.revoke_refresh_token: find the first unrevoked row
holding the token digest; when present flip it to revoked, stamp revoked_at,
and report true, otherwise report false and leave the table unchanged. -/
def revoke_refresh_token (db : DB) (tok : Token) (now : ℤ) : Bool × DB :=
  match db.sessions.find?
      (fun s => s.token_hash == tok.hashValue && s.is_revoked == false) with
  | some _ =>
    (true,
     { db with
       sessions :=
         updateFirst (fun s => s.token_hash == tok.hashValue && s.is_revoked == false)
           (fun s => { s with is_revoked := true, revoked_at := some now }) db.sessions })
  | none => (false, db)

/-- Method TokenService.revoke_all_user_tokens: flip every unrevoked row of
the user and report how many were flipped. -/
def revoke_all_user_tokens (db : DB) (uid : String) (now : ℤ) : ℕ × DB :=
  ((db.sessions.filter (fun s => s.user_id == uid && s.is_revoked == false)).length,
   { db with
     sessions :=
       db.sessions.map (fun s =>
         if s.user_id == uid && s.is_revoked == false then
           { s with is_revoked := true, revoked_at := some now }
         else s) })

/-- Method TokenService.get_user_from_token: verify as an access token (which,
as verify_token shows, never inspects the kind), then load the active user
with the subject id; any failure collapses to none. -/
def get_user_from_token (db : DB) (tok : Token) (now : ℤ) : Option User :=
  match verify_token tok now with
  | Except.error _ => none
  | Except.ok td =>
    match td.sub with
    | none => none
    | some uid => db.users.find? (fun u => u.id == uid && u.is_active == true)

/-- Worker of pySplitColon: walk the characters, cutting at each colon. -/
def pySplitColonGo : List Char → List Char → List String
  | [], acc => [String.mk acc.reverse]
  | c :: cs, acc =>
    if c = ':' then String.mk acc.reverse :: pySplitColonGo cs []
    else pySplitColonGo cs (c :: acc)

/-- Behaviour of the Python str.split method with the colon separator, over
the character data of the string. -/
def pySplitColon (s : String) : List String :=
  pySplitColonGo s.data []

/-- Method PermissionMiddleware._has_permission of
middleware/permission_middleware.py.  The first guard covers a missing role or
an empty (falsy) permissions dict; the capability string is split on the
colon, raising ValueError unless it yields exactly two parts; a dict holding
the literal admin key allows everything; otherwise the action must occur in
the action list of the resource key. -/
def hasPermission (role : Option Role) (cap : String) : Except String Bool :=
  match role with
  | none => Except.ok false
  | some r =>
    if r.permissions.isEmpty then Except.ok false
    else
      match pySplitColon cap with
      | [resource, action] =>
        let user_permissions := dictGet r.permissions resource
        if dictContains r.permissions "admin" then Except.ok true
        else Except.ok (user_permissions.contains action)
      | _ => Except.error "ValueError: not exactly two parts"

/-- Dependency require_permission of core/auth.py, as the HTTP outcome of its
permission_checker: 403 when no role or empty permissions dict, 500 when the
capability string does not split into exactly two parts, 403 when the action
is missing from the action list of the resource (there is no admin override
here), success otherwise. -/
def require_permission_check (role : Option Role) (cap : String) : Except ℕ Unit :=
  match role with
  | none => Except.error 403
  | some r =>
    if r.permissions.isEmpty then Except.error 403
    else
      match pySplitColon cap with
      | [resource, action] =>
        if (dictGet r.permissions resource).contains action then Except.ok ()
        else Except.error 403
      | _ => Except.error 500

/-- Method UserService.change_password of services/user_service.py, to which
AuthService.change_password delegates: load the user by id, verify the current
password against the stored digest with the abstract bcrypt verifier verifyPw,
replace the digest by the fresh salted digest newDigest produced by
get_password_hash, commit, and return True.  No other table is touched. -/
def change_password (verifyPw : String → String → Bool) (newDigest : String)
    (db : DB) (user_id : String) (current_password : String) :
    Except String (Bool × DB) :=
  match db.users.find? (fun u => u.id == user_id) with
  | none => Except.error "User not found"
  | some user =>
    if verifyPw current_password user.password_hash = false then
      Except.error "Current password is incorrect"
    else
      let upd := fun (u : User) => { u with password_hash := newDigest }
      Except.ok (true, { db with users := updateFirst (fun u => u.id == user_id) upd db.users })

/-- Python exceptions crossing the service boundary of the login flow: the
fastapi HTTPException carrying a status code, and ValueError. -/
inductive PyExc where
  | httpException (status : ℕ)
  | valueError (msg : String)
  deriving DecidableEq, Repr

/-- Function check_rate_limit of core/rate_limiter.py: run is_allowed for the
client address and raise HTTPException 429 (with a Retry-After header) when it
denies. -/
def check_rate_limit (rl : RateLimiter) (client_ip : String) (now : ℤ) :
    Except PyExc Unit × RateLimiter :=
  match rl.is_allowed client_ip now with
  | (true, rl2) => (Except.ok (), rl2)
  | (false, rl2) => (Except.error (PyExc.httpException 429), rl2)

/-- Function check_login_attempts of core/rate_limiter.py: raise HTTPException
423 when the identity is locked out. -/
def check_login_attempts (tr : LoginAttemptTracker) (email : String) (now : ℤ) :
    Except PyExc Unit :=
  if tr.is_locked_out email now then Except.error (PyExc.httpException 423)
  else Except.ok ()

/-- Method AuthService.authenticate_user of services/auth_service.py: lockout
gate first, then user lookup by email, active check, password check, with a
failure record on each credential failure and a success record plus token
issuance on success.  Returns the outcome with the mutated tracker and
database. -/
def authenticate_user (verifyPw : String → String → Bool) (freshRefresh : Token)
    (db : DB) (tr : LoginAttemptTracker) (email password : String) (now : ℤ) :
    Except PyExc (Token × Token) × LoginAttemptTracker × DB :=
  match check_login_attempts tr email now with
  | Except.error e => (Except.error e, tr, db)
  | Except.ok _ =>
    match db.users.find? (fun u => u.email == email) with
    | none =>
      (Except.error (PyExc.valueError "Invalid credentials"),
       tr.record_failed_attempt email now, db)
    | some user =>
      if user.is_active = false then
        (Except.error (PyExc.valueError "User account is inactive"),
         tr.record_failed_attempt email now, db)
      else if verifyPw password user.password_hash = false then
        (Except.error (PyExc.valueError "Invalid credentials"),
         tr.record_failed_attempt email now, db)
      else
        let tr2 := tr.record_successful_attempt email
        let (pair, db2) := create_tokens db user freshRefresh now
        (Except.ok pair, tr2, db2)

/-- Combined mutable state reached from the login endpoint. -/
structure AuthState where
  db : DB
  rl : RateLimiter
  tracker : LoginAttemptTracker

/-- Body of the login handler of api/v1/auth.py inside its try block:
check_rate_limit on the client address, then authenticate_user. -/
def login_body (verifyPw : String → String → Bool) (freshRefresh : Token)
    (st : AuthState) (client_ip email password : String) (now : ℤ) :
    Except PyExc (Token × Token) × AuthState :=
  match check_rate_limit st.rl client_ip now with
  | (Except.error e, rl2) => (Except.error e, { st with rl := rl2 })
  | (Except.ok _, rl2) =>
    match authenticate_user verifyPw freshRefresh st.db st.tracker email password now with
    | (out, tr2, db2) => (out, { db := db2, rl := rl2, tracker := tr2 })

/-- The login handler of api/v1/auth.py with its exception handlers: a
ValueError maps to HTTPException 401; every other exception, including the
HTTPException 429 raised by check_rate_limit and the HTTPException 423 raised
by check_login_attempts (neither of which is a ValueError), is caught by the
blanket handler and re-raised as HTTPException 500.  The outcome is the token
pair or the HTTP status sent to the client. -/
def login_endpoint (verifyPw : String → String → Bool) (freshRefresh : Token)
    (st : AuthState) (client_ip email password : String) (now : ℤ) :
    Except ℕ (Token × Token) × AuthState :=
  match login_body verifyPw freshRefresh st client_ip email password now with
  | (Except.ok pair, st2) => (Except.ok pair, st2)
  | (Except.error (PyExc.valueError _), st2) => (Except.error 401, st2)
  | (Except.error (PyExc.httpException _), st2) => (Except.error 500, st2)

/-- Boolean success test on an Except value. -/
def isOkB {ε α : Type} (r : Except ε α) : Bool :=
  match r with
  | Except.ok _ => true
  | Except.error _ => false

/-- Running a sequence of is_allowed calls for one key at the given times,
collecting the results. -/
def runSeq (rl : RateLimiter) (key : String) : List ℤ → List Bool
  | [] => []
  | t :: ts =>
    match rl.is_allowed key t with
    | (b, rl2) => b :: runSeq rl2 key ts

/-- Expected answer pattern of a run of is_allowed calls that evict nothing:
true while the running count is below the ceiling, false afterwards. -/
def expectedResults (count ceiling : ℕ) : ℕ → List Bool
  | 0 => []
  | len + 1 =>
    if count < ceiling then true :: expectedResults (count + 1) ceiling len
    else false :: expectedResults count ceiling len

/-- Decidable equality on Except values, so closed statements about service
outcomes can be settled by evaluation. -/
def exceptDecEq {ε α : Type} [DecidableEq ε] [DecidableEq α] :
    DecidableEq (Except ε α) := fun a b =>
  match a, b with
  | Except.ok x, Except.ok y =>
    if h : x = y then isTrue (by rw [h])
    else isFalse (fun hc => h (Except.ok.inj hc))
  | Except.error x, Except.error y =>
    if h : x = y then isTrue (by rw [h])
    else isFalse (fun hc => h (Except.error.inj hc))
  | Except.ok _, Except.error _ => isFalse (fun hc => Except.noConfusion hc)
  | Except.error _, Except.ok _ => isFalse (fun hc => Except.noConfusion hc)

instance {ε α : Type} [DecidableEq ε] [DecidableEq α] : DecidableEq (Except ε α) :=
  exceptDecEq

/-
Concrete fixtures used by closed counterexamples and witnesses.
-/

/-- Demo stand-in for the bcrypt verifier: accepts exactly the password
old-pw against the digest H1. -/
def verifyPwDemo : String → String → Bool :=
  fun plain digest => plain == "old-pw" && digest == "H1"

/-- An active demo user. -/
def user1 : User :=
  { id := "u1", email := "a@b.com", password_hash := "H1", is_active := true,
    first_name := "Ada", last_name := "L", role := none }

/-- An inactive demo user. -/
def user2 : User :=
  { id := "u2", email := "c@d.com", password_hash := "H1", is_active := false,
    first_name := "Bob", last_name := "M", role := none }

/-- A live refresh session for user1. -/
def session1 : RefreshSession :=
  { user_id := "u1", token_hash := "rh1", expires_at := 1000, is_revoked := false,
    revoked_at := none }

/-- Demo database: one active user, one inactive user, one live session. -/
def db1 : DB := { users := [user1, user2], sessions := [session1] }

/-- A validly signed, unexpired refresh token for user1 whose digest matches
session1. -/
def refreshTok1 : Token :=
  { payload := { sub := some "u1", exp := 1000, type := some "refresh" },
    sigValid := true, hashValue := "rh1" }

/-- Demo rate limiter holding five recorded timestamps for one key. -/
def rl9 : RateLimiter :=
  { requests := fun k => if k = "k" then [10] else [],
    max_requests := 5, window_seconds := 60 }

/-- A fresh refresh token as create_refresh_token would sign it for user1. -/
def freshTok2 : Token :=
  { payload := { sub := some "u1", exp := 700000, type := some "refresh" },
    sigValid := true, hashValue := "rh2" }

/-- The database db1 after the password of user1 is changed to the digest
H2. -/
def db1AfterCp : DB :=
  { users := [{ user1 with password_hash := "H2" }, user2], sessions := [session1] }

/-- Auth state whose rate limiter already holds five recent timestamps for the
client address 9.9.9.9. -/
def stRate : AuthState :=
  { db := db1,
    rl := { requests := fun k => if k = "9.9.9.9" then [0, 0, 0, 0, 0] else [],
            max_requests := 5, window_seconds := 60 },
    tracker := LoginAttemptTracker.mk0 }

/-- Auth state whose lockout tracker already holds five recent failures for
the identity a@b.com. -/
def stLock : AuthState :=
  { db := db1,
    rl := RateLimiter.mk0,
    tracker := { failed_attempts := fun k => if k = "a@b.com" then [0, 0, 0, 0, 0] else [],
                 max_failed_attempts := 5, lockout_duration := 300 } }

/-- Auth state with pristine limiter and tracker. -/
def stClean : AuthState :=
  { db := db1, rl := RateLimiter.mk0, tracker := LoginAttemptTracker.mk0 }

/-- Identity-relevant projection of a user: the two fields the token service
reads when resolving a refresh token, besides the password hash. -/
def userKey (u : User) : String × Bool := (u.id, u.is_active)

/-
Helper lemmas.
-/

theorem dictContains_false_get_nil {d : List (String × List String)} {k : String}
    (h : dictContains d k = false) : dictGet d k = [] := by
  unfold dictContains at h
  unfold dictGet
  cases hf : d.find? (fun p => p.1 == k) with
  | none => rfl
  | some p => rw [hf] at h; simp at h

theorem dictContains_not_isEmpty {d : List (String × List String)} {k : String}
    (h : dictContains d k = true) : d.isEmpty = false := by
  cases d with
  | nil => unfold dictContains at h; simp [List.find?] at h
  | cons a l => rfl

theorem recordFailures_apply (tr : LoginAttemptTracker) (key : String) (ts : List ℤ) :
    (recordFailures tr key ts).failed_attempts key = tr.failed_attempts key ++ ts := by
  induction ts generalizing tr with
  | nil => simp [recordFailures]
  | cons t ts ih =>
    show (recordFailures (tr.record_failed_attempt key t) key ts).failed_attempts key = _
    rw [ih]
    simp [LoginAttemptTracker.record_failed_attempt]

theorem recordFailures_params (tr : LoginAttemptTracker) (key : String) (ts : List ℤ) :
    (recordFailures tr key ts).max_failed_attempts = tr.max_failed_attempts ∧
    (recordFailures tr key ts).lockout_duration = tr.lockout_duration := by
  induction ts generalizing tr with
  | nil => exact ⟨rfl, rfl⟩
  | cons t ts ih =>
    exact ⟨(ih (tr.record_failed_attempt key t)).1, (ih (tr.record_failed_attempt key t)).2⟩

theorem listMin_mem (t : ℤ) (ts : List ℤ) : listMin t ts ∈ t :: ts := by
  induction ts generalizing t with
  | nil => simp [listMin]
  | cons u ts ih =>
    simp only [listMin, List.foldl]
    have h := ih (min t u)
    simp only [listMin] at h
    rcases List.mem_cons.mp h with h1 | h1
    · rcases min_choice t u with hc | hc
      · exact List.mem_cons.mpr (Or.inl (h1.trans hc))
      · exact List.mem_cons.mpr (Or.inr (List.mem_cons.mpr (Or.inl (h1.trans hc))))
    · exact List.mem_cons.mpr (Or.inr (List.mem_cons.mpr (Or.inr h1)))

theorem listMin_le (t : ℤ) (ts : List ℤ) : ∀ u ∈ t :: ts, listMin t ts ≤ u := by
  induction ts generalizing t with
  | nil => intro u hu; simp at hu; simp [listMin, hu]
  | cons v ts ih =>
    intro u hu
    simp only [listMin, List.foldl]
    rcases List.mem_cons.mp hu with h1 | h1
    · subst h1
      exact le_trans (ih (min u v) (min u v) (by simp)) (min_le_left u v)
    · rcases List.mem_cons.mp h1 with h2 | h2
      · subst h2
        exact le_trans (ih (min t u) (min t u) (by simp)) (min_le_right t u)
      · exact ih (min t v) u (by simp [h2])

theorem listMin_eq_of_lb (t : ℤ) (ts : List ℤ) (t0 : ℤ)
    (hmem : t0 ∈ t :: ts) (hlb : ∀ u ∈ t :: ts, t0 ≤ u) : listMin t ts = t0 :=
  le_antisymm (listMin_le t ts t0 hmem) (hlb _ (listMin_mem t ts))

theorem find_updateFirst_userKey (p p2 : User → Bool) (f : User → User)
    (hp2 : ∀ u, p2 (f u) = p2 u) (hk : ∀ u, userKey (f u) = userKey u) :
    ∀ l : List User,
      ((updateFirst p f l).find? p2).map userKey = (l.find? p2).map userKey := by
  intro l
  induction l with
  | nil => rfl
  | cons a l ih =>
    cases hpa : p a with
    | true =>
      simp only [updateFirst, hpa, if_true]
      cases hq : p2 a with
      | true =>
        rw [List.find?_cons_of_pos _ (by rw [hp2]; exact hq),
            List.find?_cons_of_pos _ hq]
        simp [hk a]
      | false =>
        rw [List.find?_cons_of_neg _ (by rw [hp2]; simp [hq]),
            List.find?_cons_of_neg _ (by simp [hq])]
    | false =>
      simp only [updateFirst, hpa, if_false, Bool.false_eq_true]
      cases hq : p2 a with
      | true =>
        rw [List.find?_cons_of_pos _ hq, List.find?_cons_of_pos _ hq]
      | false =>
        rw [List.find?_cons_of_neg _ (by simp [hq]),
            List.find?_cons_of_neg _ (by simp [hq])]
        exact ih

theorem find?_updateFirst_decomp {α : Type} (p : α → Bool) (f : α → α) :
    ∀ (l : List α) (a : α), l.find? p = some a →
      ∃ l1 l2, l = l1 ++ a :: l2 ∧ (∀ x ∈ l1, p x = false) ∧ p a = true ∧
        updateFirst p f l = l1 ++ f a :: l2 := by
  intro l
  induction l with
  | nil => intro a h; simp [List.find?] at h
  | cons x l ih =>
    intro a h
    cases hp : p x with
    | true =>
      rw [List.find?_cons_of_pos _ hp] at h
      obtain rfl := Option.some.inj h
      refine ⟨[], l, by simp, by simp, hp, ?_⟩
      simp [updateFirst, hp]
    | false =>
      rw [List.find?_cons_of_neg _ (by simp [hp])] at h
      obtain ⟨l1, l2, hl, hl1, hpa, hupd⟩ := ih a h
      refine ⟨x :: l1, l2, by simp [hl], ?_, hpa, ?_⟩
      · intro y hy
        rcases List.mem_cons.mp hy with rfl | hy2
        · exact hp
        · exact hl1 y hy2
      · simp [updateFirst, hp, hupd]

theorem jwtDecode_ok {tok : Token} {now : ℤ} {p : TokenPayload}
    (h : jwtDecode tok now = Except.ok p) : p = tok.payload := by
  unfold jwtDecode at h
  split_ifs at h
  exact (Except.ok.inj h).symm

theorem verify_refresh_token_sub {tok : Token} {now : ℤ} {td : TokenData}
    (h : verify_refresh_token tok now = Except.ok td) : td.sub = tok.payload.sub := by
  unfold verify_refresh_token at h
  cases hd : jwtDecode tok now with
  | error e =>
    simp only [hd] at h
    exact Except.noConfusion h
  | ok p =>
    obtain rfl := jwtDecode_ok hd
    simp only [hd] at h
    by_cases ht : tok.payload.type ≠ some "refresh"
    · rw [if_pos ht] at h; exact Except.noConfusion h
    · rw [if_neg ht] at h
      cases hs : tok.payload.sub with
      | none => rw [hs] at h; exact Except.noConfusion h
      | some uid =>
        rw [hs] at h
        rw [← Except.ok.inj h]

/-- Failure of a refresh exchange whenever no session row can satisfy the
lookup of refresh_access_token, whatever the verification outcome. -/
theorem refresh_result_fails_of (db : DB) (tok : Token) (now2 : ℤ)
    (h : ∀ uid user s, tok.payload.sub = some uid →
      db.users.find? (fun u => u.id == uid) = some user →
      s ∈ db.sessions →
      (s.user_id == user.id && s.token_hash == tok.hashValue &&
        s.is_revoked == false && decide (now2 < s.expires_at)) = false) :
    isOkB (refresh_result db tok now2) = false := by
  unfold refresh_result
  cases hvt : verify_refresh_token tok now2 with
  | error e => simp [isOkB, hvt]
  | ok td =>
    simp only [hvt]
    cases hsub : td.sub with
    | none => simp [isOkB, hsub]
    | some uid =>
      simp only [hsub]
      have hpay : tok.payload.sub = some uid := by
        rw [← verify_refresh_token_sub hvt, hsub]
      cases hfu : db.users.find? (fun u => u.id == uid) with
      | none => simp [isOkB, hfu]
      | some user =>
        simp only [hfu]
        cases hact : user.is_active with
        | false => simp [isOkB, hact]
        | true =>
          have hnone : db.sessions.find? (fun s =>
              s.user_id == user.id && s.token_hash == tok.hashValue &&
              s.is_revoked == false && decide (now2 < s.expires_at)) = none := by
            rw [List.find?_eq_none]
            intro s hs
            rw [h uid user s hpay hfu hs]
            simp
          simp only [hact, hnone]
          simp [isOkB]

/-- After a successful revoke under hash uniqueness, every session row either
misses the token digest or is revoked. -/
theorem revoke_aftermath (db : DB) (tok : Token) (now : ℤ) (s0 : RefreshSession)
    (hu : (db.sessions.filter (fun s => s.token_hash == tok.hashValue)).length ≤ 1)
    (hf : db.sessions.find?
      (fun s => s.token_hash == tok.hashValue && s.is_revoked == false) = some s0) :
    ∀ x ∈ (revoke_refresh_token db tok now).2.sessions,
      (x.token_hash == tok.hashValue) = false ∨ x.is_revoked = true := by
  obtain ⟨l1, l2, hl, hl1, hps, hupd⟩ := find?_updateFirst_decomp
    (fun s => s.token_hash == tok.hashValue && s.is_revoked == false)
    (fun s => { s with is_revoked := true, revoked_at := some now }) db.sessions s0 hf
  have hps2 : s0.token_hash = tok.hashValue ∧ s0.is_revoked = false := by simpa using hps
  have hsess : (revoke_refresh_token db tok now).2.sessions =
      l1 ++ { s0 with is_revoked := true, revoked_at := some now } :: l2 := by
    simp only [revoke_refresh_token, hf]
    exact hupd
  have hs0t : (s0.token_hash == tok.hashValue) = true := by
    simp [hps2.1]
  rw [hl, List.filter_append, List.length_append] at hu
  simp only [List.filter_cons, hs0t, if_true, List.length_cons] at hu
  have hfl2 : (l2.filter (fun s => s.token_hash == tok.hashValue)).length = 0 := by omega
  have hl2 : ∀ x ∈ l2, ¬ ((x.token_hash == tok.hashValue) = true) :=
    List.filter_eq_nil_iff.mp (List.length_eq_zero.mp hfl2)
  intro x hx
  rw [hsess] at hx
  rcases List.mem_append.mp hx with hx1 | hx2
  · rcases Bool.and_eq_false_iff.mp (hl1 x hx1) with h1 | h1
    · exact Or.inl h1
    · right
      cases hr : x.is_revoked
      · rw [hr] at h1; simp at h1
      · rfl
  · rcases List.mem_cons.mp hx2 with rfl | hx3
    · exact Or.inr rfl
    · left
      cases hh : x.token_hash == tok.hashValue
      · rfl
      · exact absurd hh (hl2 x hx3)

/-
Claim theorems.
-/

/-- C1 (counterexample): a validly signed, unexpired token of kind refresh
presented where an access token is required does resolve to a subject:
get_user_from_token accepts refreshTok1 and returns the active user, because
verify_token never inspects the kind claim. -/
theorem C1_refresh_token_resolves_cex :
    refreshTok1.payload.type = some "refresh" ∧
    get_user_from_token db1 refreshTok1 0 = some user1 := by decide

/-- C1 (amended): verify_token checks only the signature, the expiry and the
presence of a subject, never the kind; hence any such token, of whatever kind
(the type claim is unconstrained here, including the value refresh), resolves
through get_user_from_token to the active user with the subject id, when one
exists. -/
theorem C1_verify_token_ignores_kind (tok : Token) (now : ℤ) (uid : String) (db : DB)
    (hsig : tok.sigValid = true) (hexp : ¬ tok.payload.exp < now)
    (hsub : tok.payload.sub = some uid) :
    verify_token tok now = Except.ok { sub := some uid } ∧
    get_user_from_token db tok now =
      db.users.find? (fun u => u.id == uid && u.is_active == true) := by
  have hv : verify_token tok now = Except.ok { sub := some uid } := by
    simp [verify_token, jwtDecode, hsig, hexp, hsub]
  exact ⟨hv, by simp [get_user_from_token, hv]⟩

/-- C1 witness: the amended statement applied to the concrete refresh token
and database. -/
theorem C1_verify_token_ignores_kind_witness :
    verify_token refreshTok1 0 = Except.ok { sub := some "u1" } ∧
    get_user_from_token db1 refreshTok1 0 =
      db1.users.find? (fun u => u.id == "u1" && u.is_active == true) :=
  C1_verify_token_ignores_kind refreshTok1 0 "u1" db1 (by decide) (by decide) (by decide)

/-- C5 (counterexample): a role whose permission map holds the literal admin
key but lacks the users resource is allowed users:read by the middleware
permission check, so a role lacking the requested resource key is not always
denied. -/
theorem C5_admin_lacking_resource_cex :
    dictContains (Role.mk "r" [("admin", [])]).permissions "users" = false ∧
    hasPermission (some (Role.mk "r" [("admin", [])])) "users:read" = Except.ok true := by
  decide

/-- C5 (amended): for a well-formed capability string, the middleware check
_has_permission allows unconditionally when the permission map holds the
literal admin key, and denies when the map lacks both the resource key and the
admin key; the dependency require_permission of core/auth.py has no admin
override at all and denies with 403 whenever the map lacks the resource
key. -/
theorem C5_permission_eval (r : Role) (cap resource action : String)
    (hsplit : pySplitColon cap = [resource, action]) :
    (dictContains r.permissions "admin" = true →
      hasPermission (some r) cap = Except.ok true) ∧
    (dictContains r.permissions resource = false →
      dictContains r.permissions "admin" = false →
      hasPermission (some r) cap = Except.ok false) ∧
    (dictContains r.permissions resource = false →
      require_permission_check (some r) cap = Except.error 403) := by
  refine ⟨?_, ?_, ?_⟩
  · intro hadm
    have hne := dictContains_not_isEmpty hadm
    simp [hasPermission, hne, hsplit, hadm]
  · intro hres hadm
    have hget := dictContains_false_get_nil hres
    cases he : r.permissions.isEmpty with
    | true => simp [hasPermission, he]
    | false => simp [hasPermission, he, hsplit, hadm, hget]
  · intro hres
    have hget := dictContains_false_get_nil hres
    cases he : r.permissions.isEmpty with
    | true => simp [require_permission_check, he]
    | false => simp [require_permission_check, he, hsplit, hget]

/-- C5 witness: the amended statement applied to an admin-keyed role (allowed
by the middleware, denied by require_permission) and to a role lacking the
resource (denied). -/
theorem C5_permission_eval_witness :
    hasPermission (some (Role.mk "r" [("admin", [])])) "users:read" = Except.ok true ∧
    require_permission_check (some (Role.mk "r" [("admin", [])])) "users:read" =
      Except.error 403 ∧
    hasPermission (some (Role.mk "v" [("candidates", ["read"])])) "users:read" =
      Except.ok false :=
  ⟨(C5_permission_eval (Role.mk "r" [("admin", [])]) "users:read" "users" "read"
      (by decide)).1 (by decide),
   (C5_permission_eval (Role.mk "r" [("admin", [])]) "users:read" "users" "read"
      (by decide)).2.2 (by decide),
   (C5_permission_eval (Role.mk "v" [("candidates", ["read"])]) "users:read" "users" "read"
      (by decide)).2.1 (by decide) (by decide)⟩

/-- C7: with the built-in threshold 5 and lockout window 300 s, five
record_failed_attempt calls for an identity, all within the window of the
query time, make is_locked_out report true, and one record_successful_attempt
clears the history so is_locked_out reports false again. -/
theorem C7_lockout_threshold (tr : LoginAttemptTracker) (key : String) (ts : List ℤ)
    (now : ℤ) (hM : tr.max_failed_attempts = 5) (hW : tr.lockout_duration = 300)
    (hlen : ts.length = 5) (hall : ∀ t ∈ ts, now - t < 300) :
    (recordFailures tr key ts).is_locked_out key now = true ∧
    ((recordFailures tr key ts).record_successful_attempt key).is_locked_out key now
      = false := by
  have hmax := (recordFailures_params tr key ts).1
  have hdur := (recordFailures_params tr key ts).2
  constructor
  · unfold LoginAttemptTracker.is_locked_out
    rw [recordFailures_apply, hmax, hdur, hM, hW]
    have hts : ts.filter (fun a => decide (now - a < 300)) = ts :=
      List.filter_eq_self.mpr (fun a ha => by simpa using hall a ha)
    rw [List.filter_append, hts]
    simp [hlen, Nat.le_add_left]
  · unfold LoginAttemptTracker.is_locked_out LoginAttemptTracker.record_successful_attempt
    simp [hmax, hM]

/-- C7 witness: the theorem applied to the pristine tracker with failures at
times 0 to 4 and query time 10. -/
theorem C7_lockout_threshold_witness :
    (recordFailures LoginAttemptTracker.mk0 "a@b.com" [0, 1, 2, 3, 4]).is_locked_out
      "a@b.com" 10 = true ∧
    ((recordFailures LoginAttemptTracker.mk0 "a@b.com" [0, 1, 2, 3, 4]).record_successful_attempt
      "a@b.com").is_locked_out "a@b.com" 10 = false :=
  C7_lockout_threshold LoginAttemptTracker.mk0 "a@b.com" [0, 1, 2, 3, 4] 10
    (by decide) (by decide) (by decide) (by decide)

/-- C9 (counterexample): a key with a single recorded timestamp, far below the
ceiling of five and so not rate-limited (is_allowed still answers true), gets
a positive get_retry_after of 50 rather than the 0 the claim requires. -/
theorem C9_nonlimited_positive_cex :
    ((rl9.requests "k").filter
        (fun t => (20 : ℤ) - rl9.window_seconds < t)).length < rl9.max_requests ∧
    (rl9.is_allowed "k" 20).1 = true ∧
    rl9.get_retry_after "k" 20 = 50 := by decide

/-- C9 (amended): get_retry_after returns 0 exactly for an empty recorded
history, and otherwise the truncated, zero-clamped number of seconds until the
oldest recorded timestamp (pruned or not, limited or not) leaves the window;
it does not consult the ceiling and can be positive for a key that is not
rate-limited. -/
theorem C9_retry_after_oldest (rl : RateLimiter) (key : String) (now : ℤ) :
    (rl.requests key = [] → rl.get_retry_after key now = 0) ∧
    (∀ t0, t0 ∈ rl.requests key → (∀ u ∈ rl.requests key, t0 ≤ u) →
      rl.get_retry_after key now = max 0 ((t0 + rl.window_seconds - now))) := by
  constructor
  · intro h; simp [RateLimiter.get_retry_after, h]
  · intro t0 hmem hlb
    unfold RateLimiter.get_retry_after
    cases hreq : rl.requests key with
    | nil => rw [hreq] at hmem; simp at hmem
    | cons t ts =>
      rw [hreq] at hmem hlb
      show (0 ⊔ (listMin t ts + rl.window_seconds - now)) = _
      rw [listMin_eq_of_lb t ts t0 hmem hlb]

/-- C9 witness: the amended statement applied to the demo limiter, for an
untouched key and for the key holding one timestamp. -/
theorem C9_retry_after_oldest_witness :
    rl9.get_retry_after "x" 20 = 0 ∧
    rl9.get_retry_after "k" 20 = max 0 ((10 + rl9.window_seconds - 20)) :=
  ⟨(C9_retry_after_oldest rl9 "x" 20).1 (by decide),
   (C9_retry_after_oldest rl9 "k" 20).2 10 (by decide) (by decide)⟩

/-- C10: refresh_access_token performs no writes, so every refresh session row
survives a successful exchange unchanged (in particular the presented session
keeps revoked equal to false), and exchanging the same refresh token again
against the resulting state gives the identical outcome. -/
theorem C10_refresh_no_rotation (db : DB) (tok : Token) (now : ℤ) :
    (refresh_access_token db tok now).2 = db ∧
    refresh_access_token (refresh_access_token db tok now).2 tok now =
      refresh_access_token db tok now :=
  ⟨rfl, rfl⟩

/-- C2 (counterexample): a successful change_password call leaves the one
refresh session of the subject unrevoked, and the refresh token issued before
the change is still exchangeable for an access token afterwards. -/
theorem C2_change_password_keeps_sessions_cex :
    change_password verifyPwDemo "H2" db1 "u1" "old-pw" = Except.ok (true, db1AfterCp) ∧
    db1AfterCp.sessions = [session1] ∧
    session1.is_revoked = false ∧
    isOkB (refresh_access_token db1AfterCp refreshTok1 0).1 = true := by decide

/-- C2 (amended): a successful change_password call verifies the current
password and replaces the stored digest, and nothing else: the refresh session
table is untouched (no session is revoked), and every refresh token resolves
after the call exactly as it did before, so previously issued refresh tokens
remain exchangeable. -/
theorem C2_change_password_frame (verifyPw : String → String → Bool)
    (newDigest : String) (db db2 : DB) (uid cur : String) (b : Bool)
    (h : change_password verifyPw newDigest db uid cur = Except.ok (b, db2)) :
    b = true ∧ db2.sessions = db.sessions ∧
    ∀ tok now, refresh_result db2 tok now = refresh_result db tok now := by
  cases hf : db.users.find? (fun u => u.id == uid) with
  | none =>
    simp only [change_password, hf] at h
    exact Except.noConfusion h
  | some user =>
    simp only [change_password, hf] at h
    cases hv : verifyPw cur user.password_hash with
    | false => rw [if_pos (by rw [hv])] at h; exact absurd h (by simp)
    | true =>
      rw [if_neg (by simp [hv])] at h
      rw [Except.ok.injEq, Prod.mk.injEq] at h
      obtain ⟨hb, hdb⟩ := h
      subst hdb
      subst hb
      refine ⟨rfl, rfl, ?_⟩
      intro tok now
      unfold refresh_result
      cases hvt : verify_refresh_token tok now with
      | error e => simp [hvt]
      | ok td =>
        cases hsub : td.sub with
        | none => simp [hvt, hsub]
        | some uid2 =>
          have hfind := find_updateFirst_userKey (fun u => u.id == uid)
              (fun u => u.id == uid2)
              (fun u => { u with password_hash := newDigest })
              (fun u => rfl) (fun u => rfl) db.users
          cases ho : db.users.find? (fun u => u.id == uid2) with
          | none =>
            rw [ho] at hfind
            simp only [Option.map_none'] at hfind
            have ho2 := Option.map_eq_none'.mp hfind
            simp [hvt, hsub, ho, ho2]
          | some u =>
            rw [ho] at hfind
            cases ho2 : (updateFirst (fun u => u.id == uid)
                (fun u => { u with password_hash := newDigest })
                db.users).find? (fun u => u.id == uid2) with
            | none => rw [ho2] at hfind; simp at hfind
            | some v =>
              rw [ho2] at hfind
              simp only [Option.map_some'] at hfind
              have hkey : userKey v = userKey u := Option.some.inj hfind
              have hid : v.id = u.id := congrArg Prod.fst hkey
              have hact : v.is_active = u.is_active := congrArg Prod.snd hkey
              simp only [hvt, hsub, ho, ho2]
              rw [hid, hact]

/-- C2 witness: the amended statement applied to the demo database and
password change, instantiated at the demo refresh token. -/
theorem C2_change_password_frame_witness :
    db1AfterCp.sessions = db1.sessions ∧
    refresh_result db1AfterCp refreshTok1 0 = refresh_result db1 refreshTok1 0 := by
  have h := C2_change_password_frame verifyPwDemo "H2" db1 db1AfterCp "u1" "old-pw"
    true (by decide)
  exact ⟨h.2.1, h.2.2 refreshTok1 0⟩

/-- C4: evaluation of the login endpoint on the scenarios of the claim.  A
rate-limited client address receives HTTP 500, not 429, and a locked-out
identity receives HTTP 500, not 423, because the HTTPException raised inside
the try block is caught by the blanket exception handler of the endpoint and
re-raised as a 500; bad credentials and an inactive user do receive 401, and
correct credentials succeed. -/
theorem C4_login_status_codes :
    (login_endpoint verifyPwDemo freshTok2 stRate "9.9.9.9" "a@b.com" "old-pw" 1).1 =
      Except.error 500 ∧
    (login_endpoint verifyPwDemo freshTok2 stLock "1.1.1.1" "a@b.com" "old-pw" 1).1 =
      Except.error 500 ∧
    (login_endpoint verifyPwDemo freshTok2 stClean "1.1.1.1" "a@b.com" "bad-pw" 1).1 =
      Except.error 401 ∧
    (login_endpoint verifyPwDemo freshTok2 stClean "1.1.1.1" "c@d.com" "old-pw" 1).1 =
      Except.error 401 ∧
    isOkB (login_endpoint verifyPwDemo freshTok2 stClean "1.1.1.1" "a@b.com" "old-pw" 1).1 =
      true := by decide

/-- C8: revoke_refresh_token reports true exactly when an unrevoked session
row holds the token digest (false when the row is already revoked or absent,
in which case nothing changes); on success exactly the first such row is
flipped to revoked with revoked_at stamped and every other row is untouched;
and, with digests unique, a second call on the same token reports false while
leaving the flipped row revoked. -/
theorem C8_revoke_idempotent (db : DB) (tok : Token) (now : ℤ)
    (hu : (db.sessions.filter (fun s => s.token_hash == tok.hashValue)).length ≤ 1) :
    ((revoke_refresh_token db tok now).1 = true ↔
      ∃ s ∈ db.sessions, s.token_hash = tok.hashValue ∧ s.is_revoked = false) ∧
    ((revoke_refresh_token db tok now).1 = false →
      (revoke_refresh_token db tok now).2 = db) ∧
    ((revoke_refresh_token db tok now).1 = true →
      ∃ l1 s l2,
        db.sessions = l1 ++ s :: l2 ∧
        s.token_hash = tok.hashValue ∧ s.is_revoked = false ∧
        (∀ x ∈ l1, (x.token_hash == tok.hashValue && x.is_revoked == false) = false) ∧
        (revoke_refresh_token db tok now).2.sessions =
          l1 ++ { s with is_revoked := true, revoked_at := some now } :: l2 ∧
        (revoke_refresh_token (revoke_refresh_token db tok now).2 tok now).1 = false ∧
        (revoke_refresh_token (revoke_refresh_token db tok now).2 tok now).2 =
          (revoke_refresh_token db tok now).2) := by
  refine ⟨?_, ?_, ?_⟩
  · cases hf : db.sessions.find?
        (fun s => s.token_hash == tok.hashValue && s.is_revoked == false) with
    | none =>
      simp only [revoke_refresh_token, hf]
      constructor
      · intro hc; exact absurd hc (by simp)
      · rintro ⟨s, hs, hh, hr⟩
        have hn := List.find?_eq_none.mp hf s hs
        simp [hh, hr] at hn
    | some s0 =>
      simp only [revoke_refresh_token, hf]
      constructor
      · intro _
        have hmem := List.mem_of_find?_eq_some hf
        have hps := List.find?_some hf
        simp only [Bool.and_eq_true, beq_iff_eq] at hps
        exact ⟨s0, hmem, hps.1, hps.2⟩
      · intro _; trivial
  · intro hfalse
    cases hf : db.sessions.find?
        (fun s => s.token_hash == tok.hashValue && s.is_revoked == false) with
    | none => simp only [revoke_refresh_token, hf]
    | some s0 =>
      simp only [revoke_refresh_token, hf] at hfalse
      exact absurd hfalse (by simp)
  · intro htrue
    cases hf : db.sessions.find?
        (fun s => s.token_hash == tok.hashValue && s.is_revoked == false) with
    | none =>
      simp only [revoke_refresh_token, hf] at htrue
      exact absurd htrue (by simp)
    | some s0 =>
      obtain ⟨l1, l2, hl, hl1, hps, hupd⟩ := find?_updateFirst_decomp
        (fun s => s.token_hash == tok.hashValue && s.is_revoked == false)
        (fun s => { s with is_revoked := true, revoked_at := some now })
        db.sessions s0 hf
      have hps2 : s0.token_hash = tok.hashValue ∧ s0.is_revoked = false := by
        simpa using hps
      have hsess : (revoke_refresh_token db tok now).2.sessions =
          l1 ++ { s0 with is_revoked := true, revoked_at := some now } :: l2 := by
        simp only [revoke_refresh_token, hf]
        exact hupd
      have haft := revoke_aftermath db tok now s0 hu hf
      have hnone2 : ((revoke_refresh_token db tok now).2.sessions).find?
          (fun s => s.token_hash == tok.hashValue && s.is_revoked == false) = none := by
        rw [List.find?_eq_none]
        intro x hx
        rcases haft x hx with h1 | h1 <;> simp [h1]
      have hsecond : ∀ db2 : DB,
          db2.sessions.find?
            (fun s => s.token_hash == tok.hashValue && s.is_revoked == false) = none →
          (revoke_refresh_token db2 tok now).1 = false ∧
          (revoke_refresh_token db2 tok now).2 = db2 := by
        intro db2 hn
        constructor <;> simp only [revoke_refresh_token, hn]
      exact ⟨l1, s0, l2, hl, hps2.1, hps2.2, hl1, hsess,
        (hsecond _ hnone2).1, (hsecond _ hnone2).2⟩

/-- C8 witness: revoking the live demo session reports true, and revoking the
same token again reports false. -/
theorem C8_revoke_idempotent_witness :
    (revoke_refresh_token db1 refreshTok1 5).1 = true ∧
    (revoke_refresh_token (revoke_refresh_token db1 refreshTok1 5).2 refreshTok1 5).1 =
      false := by
  have h := C8_revoke_idempotent db1 refreshTok1 5 (by decide)
  have h1 : (revoke_refresh_token db1 refreshTok1 5).1 = true :=
    h.1.mpr ⟨session1, by decide, by decide, by decide⟩
  obtain ⟨l1, s, l2, _, _, _, _, _, h2nd, _⟩ := h.2.2 h1
  exact ⟨h1, h2nd⟩

/-- C3: a refresh exchange can succeed only while an unrevoked, unexpired
session row holds the token digest; once the session is revoked through
logout (revoke_refresh_token, under unique digests) no later refresh with
that token succeeds; and after logout_all (revoke_all_user_tokens) no
refresh with any token of that subject succeeds. -/
theorem C3_refresh_requires_active_session (db : DB) (tok : Token) :
    (∀ now a, refresh_result db tok now = Except.ok a →
      ∃ s ∈ db.sessions, s.token_hash = tok.hashValue ∧ s.is_revoked = false ∧
        now < s.expires_at) ∧
    (∀ now now2,
      (db.sessions.filter (fun s => s.token_hash == tok.hashValue)).length ≤ 1 →
      (revoke_refresh_token db tok now).1 = true →
      isOkB (refresh_result (revoke_refresh_token db tok now).2 tok now2) = false) ∧
    (∀ uid now now2, tok.payload.sub = some uid →
      isOkB (refresh_result (revoke_all_user_tokens db uid now).2 tok now2) = false) := by
  refine ⟨?_, ?_, ?_⟩
  · intro now a h
    unfold refresh_result at h
    cases hvt : verify_refresh_token tok now with
    | error e => simp only [hvt] at h; exact Except.noConfusion h
    | ok td =>
      simp only [hvt] at h
      cases hsub : td.sub with
      | none => simp only [hsub] at h; exact Except.noConfusion h
      | some uid =>
        simp only [hsub] at h
        cases hfu : db.users.find? (fun u => u.id == uid) with
        | none => simp only [hfu] at h; exact Except.noConfusion h
        | some user =>
          simp only [hfu] at h
          cases hact : user.is_active with
          | false => simp [hact] at h
          | true =>
            rw [if_neg (by simp [hact])] at h
            cases hfs : db.sessions.find? (fun s =>
                s.user_id == user.id && s.token_hash == tok.hashValue &&
                s.is_revoked == false && decide (now < s.expires_at)) with
            | none => simp only [hfs] at h; exact Except.noConfusion h
            | some s =>
              have hmem := List.mem_of_find?_eq_some hfs
              have hps := List.find?_some hfs
              simp only [Bool.and_eq_true, beq_iff_eq, decide_eq_true_eq] at hps
              exact ⟨s, hmem, hps.1.1.2, hps.1.2, hps.2⟩
  · intro now now2 hu htrue
    cases hf : db.sessions.find?
        (fun s => s.token_hash == tok.hashValue && s.is_revoked == false) with
    | none =>
      simp only [revoke_refresh_token, hf] at htrue
      exact absurd htrue (by simp)
    | some s0 =>
      have haft := revoke_aftermath db tok now s0 hu hf
      apply refresh_result_fails_of
      intro uid user s hsub hfind hs
      rcases haft s hs with h1 | h1 <;> simp [h1]
  · intro uid now now2 htok
    apply refresh_result_fails_of
    intro uid2 user s hsub hfind hs
    rw [htok] at hsub
    have huid : uid2 = uid := (Option.some.inj hsub).symm
    have hps := List.find?_some hfind
    simp only [beq_iff_eq] at hps
    rw [huid] at hps
    have hsm : s ∈ db.sessions.map (fun y =>
        if y.user_id == uid && y.is_revoked == false then
          { y with is_revoked := true, revoked_at := some now }
        else y) := hs
    obtain ⟨y, hy, rfl⟩ := List.mem_map.mp hsm
    cases hcase : (y.user_id == uid && y.is_revoked == false) with
    | true =>
      simp only [hcase, if_true]
      simp
    | false =>
      simp only [hcase, if_false, Bool.false_eq_true]
      rcases Bool.and_eq_false_iff.mp hcase with h1 | h1
      · have h2 : (y.user_id == user.id) = false := by rw [hps]; exact h1
        simp [h2]
      · simp [h1]

/-- C3 witness: the demo session satisfies the activity characterisation of a
successful exchange, and after logout or logout_all the demo refresh token no
longer refreshes. -/
theorem C3_refresh_requires_active_session_witness :
    (∃ s ∈ db1.sessions, s.token_hash = refreshTok1.hashValue ∧
      s.is_revoked = false ∧ (0 : ℤ) < s.expires_at) ∧
    isOkB (refresh_result (revoke_refresh_token db1 refreshTok1 5).2 refreshTok1 6) =
      false ∧
    isOkB (refresh_result (revoke_all_user_tokens db1 "u1" 5).2 refreshTok1 6) =
      false := by
  have h := C3_refresh_requires_active_session db1 refreshTok1
  refine ⟨h.1 0 (create_access_token "u1" 0) (by decide), ?_, ?_⟩
  · refine h.2.1 5 6 (by decide) ?_
    have hc8 : (revoke_refresh_token db1 refreshTok1 5).1 = (true : Bool) := by decide
    exact hc8
  · exact h.2.2 "u1" 5 6 (by decide)

theorem expectedResults_succ (count ceiling len : ℕ) :
    expectedResults count ceiling (len + 1) =
      if count < ceiling then true :: expectedResults (count + 1) ceiling len
      else false :: expectedResults count ceiling len := rfl

theorem expectedResults_full : ∀ (k count ceiling : ℕ), count + k = ceiling →
    expectedResults count ceiling (k + 1) = List.replicate k true ++ [false] := by
  intro k
  induction k with
  | zero =>
    intro count ceiling h
    rw [expectedResults_succ, if_neg (by omega)]
    simp [expectedResults]
  | succ k ih =>
    intro count ceiling h
    rw [expectedResults_succ, if_pos (by omega), ih (count + 1) ceiling (by omega)]
    simp [List.replicate_succ]

/-- Runs of is_allowed for one key whose call times pairwise fit inside one
window evict nothing, so the answers depend only on the running count: true
while below the ceiling, false from then on. -/
theorem runSeq_expected (key : String) :
    ∀ (ts : List ℤ) (rl : RateLimiter) (acc : List ℤ),
      rl.requests key = acc →
      (∀ a ∈ acc, ∀ t ∈ ts, t - a < rl.window_seconds) →
      List.Pairwise (fun a b => b - a < rl.window_seconds) ts →
      runSeq rl key ts = expectedResults acc.length rl.max_requests ts.length := by
  intro ts
  induction ts with
  | nil => intro rl acc hacc hwin hpair; rfl
  | cons t ts ih =>
    intro rl acc hacc hwin hpair
    have hfilter : acc.filter (fun x => decide (t - rl.window_seconds < x)) = acc := by
      apply List.filter_eq_self.mpr
      intro a ha
      simp only [decide_eq_true_eq]
      have := hwin a ha t (List.mem_cons_self t ts)
      omega
    obtain ⟨hphead, hptail⟩ := List.pairwise_cons.mp hpair
    show (match rl.is_allowed key t with
          | (b, rl2) => b :: runSeq rl2 key ts) = _
    by_cases hc : acc.length < rl.max_requests
    · have h1 : rl.is_allowed key t =
          (true, { rl with requests :=
            fun k => if k = key then acc ++ [t] else rl.requests k }) := by
        simp only [RateLimiter.is_allowed, hacc, hfilter]
        rw [if_pos hc]
      rw [h1]
      have h2 := ih { rl with requests :=
          fun k => if k = key then acc ++ [t] else rl.requests k } (acc ++ [t])
        (by simp)
        (by
          intro a ha t2 ht2
          rcases List.mem_append.mp ha with ha1 | ha2
          · exact hwin a ha1 t2 (List.mem_cons_of_mem t ht2)
          · rw [List.mem_singleton.mp ha2]
            exact hphead t2 ht2)
        hptail
      simp only [List.length_cons, expectedResults_succ, if_pos hc]
      rw [h2]
      simp [List.length_append]
    · have h1 : rl.is_allowed key t =
          (false, { rl with requests :=
            fun k => if k = key then acc else rl.requests k }) := by
        simp only [RateLimiter.is_allowed, hacc, hfilter]
        rw [if_neg hc]
      rw [h1]
      have h2 := ih { rl with requests :=
          fun k => if k = key then acc else rl.requests k } acc
        (by simp)
        (by
          intro a ha t2 ht2
          exact hwin a ha t2 (List.mem_cons_of_mem t ht2))
        hptail
      simp only [List.length_cons, expectedResults_succ, if_neg hc]
      rw [h2]

/-- C6: starting from an empty history for a key and a 60-second window, a run
of ceiling-plus-one is_allowed calls whose times pairwise lie within one
window answers true exactly for the first ceiling-many calls and false for the
last; moreover a call for one key leaves every other key's history untouched,
and its outcome and recorded history depend only on that key's own history and
the limiter parameters, not on other keys. -/
theorem C6_rate_limit_window (rl : RateLimiter) (key key2 : String) (ts : List ℤ)
    (now : ℤ) (hempty : rl.requests key = []) (hw : rl.window_seconds = 60)
    (hlen : ts.length = rl.max_requests + 1)
    (hpair : List.Pairwise (fun a b => b - a < 60) ts) :
    runSeq rl key ts = List.replicate rl.max_requests true ++ [false] ∧
    (key2 ≠ key → ((rl.is_allowed key now).2).requests key2 = rl.requests key2) ∧
    (∀ rlB : RateLimiter, rlB.requests key = rl.requests key →
      rlB.max_requests = rl.max_requests → rlB.window_seconds = rl.window_seconds →
      (rlB.is_allowed key now).1 = (rl.is_allowed key now).1 ∧
      ((rlB.is_allowed key now).2).requests key =
        ((rl.is_allowed key now).2).requests key) := by
  refine ⟨?_, ?_, ?_⟩
  · have h := runSeq_expected key ts rl [] hempty (by simp) (by rw [hw]; exact hpair)
    rw [h]
    simp only [List.length_nil]
    rw [hlen]
    exact expectedResults_full rl.max_requests 0 rl.max_requests (by omega)
  · intro hk2
    by_cases hc : ((rl.requests key).filter
        (fun x => decide (now - rl.window_seconds < x))).length < rl.max_requests <;>
      simp [RateLimiter.is_allowed, hc, hk2]
  · intro rlB h1 h2 h3
    constructor
    · by_cases hc : ((rl.requests key).filter
          (fun x => decide (now - rl.window_seconds < x))).length < rl.max_requests <;>
        simp [RateLimiter.is_allowed, h1, h2, h3, hc]
    · by_cases hc : ((rl.requests key).filter
          (fun x => decide (now - rl.window_seconds < x))).length < rl.max_requests <;>
        simp [RateLimiter.is_allowed, h1, h2, h3, hc]

/-- C6 witness: six calls at times 0 to 5 for a fresh key succeed five times
then fail, and the call leaves an untouched key's history empty. -/
theorem C6_rate_limit_window_witness :
    runSeq RateLimiter.mk0 "a" [0, 1, 2, 3, 4, 5] =
      [true, true, true, true, true, false] ∧
    ((RateLimiter.mk0.is_allowed "a" 7).2).requests "b" =
      RateLimiter.mk0.requests "b" := by
  have h := C6_rate_limit_window RateLimiter.mk0 "a" "b" [0, 1, 2, 3, 4, 5] 7
    (by decide) (by decide) (by decide) (by decide)
  exact ⟨h.1.trans (by decide), h.2.1 (by decide)⟩

end HrAts
